import Mathlib

/-!
Verification of the hybrid retrieval-and-ranking pipeline of the
`hana-kgvector` example applications (pdf-chat, multi-doc-chat, and the
graph-visualizer server).

The development shallowly embeds the query-time pipeline:
  vector match -> graph expansion -> triplet classification ->
  provenance (cross-check) boosting -> channel merge/dedup -> document filter,
together with the embedding-call retry policy and the query entry points.

JavaScript conventions are embedded explicitly:
  * a possibly-absent string field (`undefined`/`null`) is `Option String`;
    an empty string is falsy, so every truthiness test checks `¬ isEmpty`;
  * numeric scores are embedded as `ℚ` (the source computes with IEEE
    doubles on provider-supplied scores; all ranking logic is ordering,
    `max`, `min` and one multiplication, which `ℚ` mirrors exactly);
  * a JS `Set` used only for membership is embedded as a `List` accumulating
    the inserted elements (duplicates do not change membership);
  * `Array.prototype.sort` with comparator `(a, b) => keyOf b - keyOf a`
    is a stable descending sort by `keyOf`, embedded as a stable insertion
    sort (any two stable sorts of the same key agree).
-/

namespace HKV

/-- Characterwise prefix test on `List Char` (used to embed
`String.prototype.includes`). -/
def startsWithChars : List Char → List Char → Bool
  | [], _ => true
  | _ :: _, [] => false
  | c :: cs, d :: ds => c == d && startsWithChars cs ds

/-- `hasSubChars hay needle` embeds `hay.includes(needle)` on the underlying
character lists. -/
def hasSubChars : List Char → List Char → Bool
  | [], needle => needle.isEmpty
  | c :: rest, needle => startsWithChars needle (c :: rest) || hasSubChars rest needle

/-- `strContainsSubstr hay needle` embeds JavaScript `hay.includes(needle)`. -/
def strContainsSubstr (hay needle : String) : Bool :=
  hasSubChars hay.data needle.data

/-- JS `String.prototype.indexOf` on a list of ids: index of the first
occurrence, `none` when absent (JS returns `-1`). -/
def jsIndexOf (l : List String) (x : String) : Option Nat :=
  match l with
  | [] => none
  | y :: ys => if y = x then some 0 else (jsIndexOf ys x).map (· + 1)

/-!
The string primitives below are the standard operations stated on the
character-list model of `String` (structurally recursive, so that concrete
instances evaluate inside the kernel).
-/

/-- `s.toLowerCase()`. -/
def jsToLower (s : String) : String :=
  ⟨s.data.map Char.toLower⟩

/-- `s.length === 0`; a JS string is falsy exactly when it is empty. -/
def jsIsEmpty (s : String) : Bool :=
  s.data.isEmpty

/-- `s.slice(0, n)`. -/
def jsTake (s : String) (n : Nat) : String :=
  ⟨s.data.take n⟩

/-- `s.slice(n)`. -/
def jsDrop (s : String) (n : Nat) : String :=
  ⟨s.data.drop n⟩

/-- `s.trim()`: strip whitespace from both ends. -/
def jsTrim (s : String) : String :=
  ⟨((s.data.dropWhile Char.isWhitespace).reverse.dropWhile Char.isWhitespace).reverse⟩

/-- `s.startsWith(pre)`. -/
def jsStartsWith (s pre : String) : Bool :=
  startsWithChars pre.data s.data

/-- `Math.min` on two (non-NaN) numbers, stated with a decidable
comparison so that concrete instances evaluate inside the kernel. -/
def qMin (a b : ℚ) : ℚ :=
  if a ≤ b then a else b

/-- `Math.max` on two (non-NaN) numbers. -/
def qMax (a b : ℚ) : ℚ :=
  if a ≤ b then b else a

/-- `Math.abs`. -/
def qAbs (q : ℚ) : ℚ :=
  if q ≤ 0 then -q else q

/-- Rational multiplication, stated through `mkRat` so that concrete
instances evaluate inside the kernel; `qMul_eq_mul` below identifies it
with `(· * ·)` on `ℚ`. -/
def qMul (a b : ℚ) : ℚ :=
  mkRat (a.num * b.num) (a.den * b.den)

/-! ## Data model (spec §3, pdf-chat/chat.ts, multi-doc-chat/chat.ts) -/

/-- Optional string properties carried by a graph node
(`node.properties.documentId`, `node.properties.sourceChunk`). -/
structure NodeProps where
  documentId : Option String := none
  sourceChunk : Option String := none
deriving DecidableEq

/-- A knowledge-graph node.  Identity is the `id` (spec §3); `name` is
optional in the source (`n?.name ?? n?.id`). -/
structure KGNode where
  id : String
  name : Option String := none
  properties : NodeProps := {}
deriving DecidableEq

/-- A predicate/relation record; the source reads `t?.[1]?.label ?? t?.[1]?.id`. -/
structure PredRec where
  id : String
  label : Option String := none
deriving DecidableEq

/-- A directed graph fact `(subject, predicate, object)`. -/
structure Triplet where
  s : KGNode
  p : PredRec
  o : KGNode
deriving DecidableEq

/-- The predicate string of a triplet: `t?.[1]?.label ?? t?.[1]?.id ?? ""`
(pdf-chat/chat.ts line 244, part_003 line 247). -/
def predOf (t : Triplet) : String :=
  t.p.label.getD t.p.id

/-- Query options recognized by the pipeline (pdf-chat/chat.ts lines 29-35). -/
structure QueryOptions where
  similarityTopK : Nat
  pathDepth : Nat
  limit : Nat
  crossCheckBoost : Bool
  crossCheckBoostFactor : ℚ
deriving DecidableEq

/-- `DEFAULT_QUERY_OPTIONS` of pdf-chat/chat.ts (also multi-doc-chat):
`{similarityTopK: 5, pathDepth: 2, limit: 30, crossCheckBoost: true,
crossCheckBoostFactor: 1.25}`. -/
def DEFAULT_QUERY_OPTIONS : QueryOptions :=
  { similarityTopK := 5, pathDepth := 2, limit := 30,
    crossCheckBoost := true, crossCheckBoostFactor := mkRat 5 4 }

/-! ## Triplet classifier (pdf-chat/chat.ts lines 234-240, part_003 lines 246-253) -/

/-- `isMetadataPredicate` of pdf-chat/chat.ts lines 234-240: a predicate is
bookkeeping metadata when it is falsy, contains the property-encoding
namespace marker, equals the RDF type-assertion IRI, or equals
`FROM_DOCUMENT`.  The filter of part_003 lines 246-253 returns `false` on
exactly the same predicate strings. -/
def isMetadataPredicate (pred : String) : Bool :=
  if jsIsEmpty pred then true
  else if HKV.strContainsSubstr pred "urn:hkv:prop:" then true
  else if pred = "http://www.w3.org/1999/02/22-rdf-syntax-ns#type" then true
  else if pred = "FROM_DOCUMENT" then true
  else false

/-- `semanticTriplets` of part_003 lines 246-253: keep exactly the triplets
whose predicate is not bookkeeping metadata (no fallback). -/
def vizSemanticTriplets (triplets : List Triplet) : List Triplet :=
  triplets.filter (fun t => !isMetadataPredicate (predOf t))

/-! ## Provenance set and cross-check boosting (pdf-chat/chat.ts lines 216-285) -/

/-- The provenance entries contributed by one vector-matched node
(pdf-chat/chat.ts lines 218-223): lower-cased `id`, `name`,
`properties.documentId`, `properties.sourceChunk`, each added only when
truthy. -/
def nodeProvenanceEntries (n : KGNode) : List String :=
  (if jsIsEmpty n.id then [] else [jsToLower n.id]) ++
  (match n.name with
   | some s => if jsIsEmpty s then [] else [jsToLower s]
   | none => []) ++
  (match n.properties.documentId with
   | some s => if jsIsEmpty s then [] else [jsToLower s]
   | none => []) ++
  (match n.properties.sourceChunk with
   | some s => if jsIsEmpty s then [] else [jsToLower s]
   | none => [])

/-- The `provenanceSet` accumulated over all vector-matched nodes
(a JS `Set` used only for membership, embedded as the list of inserted
elements). -/
def buildProvenanceSet (kgNodes : List KGNode) : List String :=
  kgNodes.flatMap nodeProvenanceEntries

/-- pdf-chat/chat.ts lines 216-225: the set is populated only when
`options.crossCheckBoost` is on. -/
def explainProvenanceSet (opts : QueryOptions) (kgNodes : List KGNode) : List String :=
  if opts.crossCheckBoost then buildProvenanceSet kgNodes else []

/-- One guarded membership test of the `shouldBoost` chain:
`(v && provenanceSet.has(String(v).toLowerCase()))` for an optional field. -/
def truthyMem (prov : List String) : Option String → Bool
  | some v => !jsIsEmpty v && decide (jsToLower v ∈ prov)
  | none => false

/-- `shouldBoost` of pdf-chat/chat.ts lines 268-276, disjuncts in source
order: subject/object `documentId`, `sourceChunk`, then `id` and `name`. -/
def shouldBoost (prov : List String) (s o : KGNode) : Bool :=
  truthyMem prov s.properties.documentId ||
  truthyMem prov s.properties.sourceChunk ||
  truthyMem prov o.properties.documentId ||
  truthyMem prov o.properties.sourceChunk ||
  (!jsIsEmpty s.id && decide (jsToLower s.id ∈ prov)) ||
  truthyMem prov s.name ||
  (!jsIsEmpty o.id && decide (jsToLower o.id ∈ prov)) ||
  truthyMem prov o.name

/-- `Math.min(1, base * factor)`, the boosted score
(pdf-chat/chat.ts line 279). -/
def boostScore (base factor : ℚ) : ℚ :=
  qMin 1 (qMul base factor)

/-- A scored triplet as produced by the explain replay:
`{ triplet, baseScore, score, boostedReason }`. -/
structure ScoredTriplet where
  triplet : Triplet
  baseScore : ℚ
  score : ℚ
  boostedReason : Option String
deriving DecidableEq

/-- The per-triplet scoring of pdf-chat/chat.ts lines 256-285:
`base = max` of the vector-match scores of the two endpoints (0 when the
endpoint is not among `kgIds`, `scores[idx] ?? 0` otherwise); boosting
applies `min(1, base * crossCheckBoostFactor)` when enabled, `base > 0`,
and `shouldBoost` fires.  `endpointScore` is the per-endpoint lookup
`idx = kgIds.indexOf(id); idx >= 0 ? (scores[idx] ?? 0) : 0`. -/
def endpointScore (kgNodes : List KGNode) (scores : List ℚ) (x : String) : ℚ :=
  match HKV.jsIndexOf (kgNodes.map (fun n => n.id)) x with
  | some i => scores.getD i 0
  | none => 0

/-- The body of the scoring map (pdf-chat/chat.ts lines 256-285): take the
max endpoint score as `base`, then boost when enabled, positive, and
provenance-corroborated. -/
def scoreTriplet (opts : QueryOptions) (kgNodes : List KGNode) (scores : List ℚ)
    (prov : List String) (t : Triplet) : ScoredTriplet :=
  let base := qMax (endpointScore kgNodes scores t.s.id) (endpointScore kgNodes scores t.o.id)
  if opts.crossCheckBoost ∧ 0 < base then
    if shouldBoost prov t.s t.o then
      { triplet := t, baseScore := base,
        score := boostScore base opts.crossCheckBoostFactor,
        boostedReason := some "provenance match" }
    else
      { triplet := t, baseScore := base, score := base, boostedReason := none }
  else
    { triplet := t, baseScore := base, score := base, boostedReason := none }

/-! ## Stable descending sort

`xs.sort((a, b) => keyOf(b) - keyOf(a))` is a stable sort, descending by
`keyOf` (ECMAScript `Array.prototype.sort` is specified stable).  Any two
stable sorts of the same key agree, so it is embedded as a stable insertion
sort parameterized by the key. -/

/-- Insert `x` before the first element whose key is not larger; elements
with equal keys keep their original relative order. -/
def insertDesc {α : Type} (keyOf : α → ℚ) (x : α) : List α → List α
  | [] => [x]
  | y :: ys => if keyOf y ≤ keyOf x then x :: y :: ys else y :: insertDesc keyOf x ys

/-- Stable insertion sort, descending by `keyOf`. -/
def sortDesc {α : Type} (keyOf : α → ℚ) : List α → List α
  | [] => []
  | x :: xs => insertDesc keyOf x (sortDesc keyOf xs)

/-- A list is sorted descending by `keyOf`. -/
def SortedDesc {α : Type} (keyOf : α → ℚ) (l : List α) : Prop :=
  l.Pairwise (fun a b => keyOf b ≤ keyOf a)

/-! ## Explain/diagnostic replay ranking (pdf-chat/chat.ts lines 242-287) -/

/-- The ranked scored-triplet list computed by `explainRetrieval`
(pdf-chat/chat.ts lines 242-287): split off metadata predicates, score the
semantic triplets — falling back to ALL triplets when no semantic triplet
exists (`split.semantic.length > 0 ? split.semantic : triplets`) — and sort
descending by boosted score. -/
def explainScoredTriplets (opts : QueryOptions) (kgNodes : List KGNode)
    (scores : List ℚ) (triplets : List Triplet) : List ScoredTriplet :=
  let prov := explainProvenanceSet opts kgNodes
  let semantic := triplets.filter (fun t => !isMetadataPredicate (predOf t))
  let toScore := if semantic.isEmpty then triplets else semantic
  sortDesc (fun r => r.score) (toScore.map (scoreTriplet opts kgNodes scores prov))

/-! ## Spec model of the production boosting (spec §4.4)

The production ranking invoked by `index.query` lives in the external
`hana-kgvector` package (`PropertyGraphIndex`), whose sources are not part
of this repository; the definitions below are the comparison point for the
refinement claim about the diagnostic replay. -/

/-- Modelled from the spec: the production `ProvenanceSet` of §4.4 step 1,
"Build the ProvenanceSet from every VectorMatch: lower-cased `id`, `name`,
`properties.documentId`, `properties.sourceChunk`" — every present value of
each matched node, lower-cased. -/
def specProvenanceSet (kgNodes : List KGNode) : List String :=
  kgNodes.flatMap (fun n =>
    [jsToLower n.id] ++
    (n.name.map (fun s => [jsToLower s])).getD [] ++
    (n.properties.documentId.map (fun s => [jsToLower s])).getD [] ++
    (n.properties.sourceChunk.map (fun s => [jsToLower s])).getD [])

/-- Modelled from the spec: `matchScore(n)` — the score paired with `n` in
the VectorMatch list when `n` is a seed, 0 otherwise (identity is the node
`id`, spec §3). -/
def specMatchScore (kgNodes : List KGNode) (scores : List ℚ) (n : KGNode) : ℚ :=
  match (kgNodes.zip scores).find? (fun m => m.1.id = n.id) with
  | some m => m.2
  | none => 0

/-- Modelled from the spec: the eligibility candidates of §4.4 step 3 —
`s.id, s.name, s.properties.documentId, s.properties.sourceChunk, o.id,
o.name, o.properties.documentId, o.properties.sourceChunk`, those present. -/
def specCandidates (t : Triplet) : List String :=
  [t.s.id] ++
  (t.s.name.map (fun s => [s])).getD [] ++
  (t.s.properties.documentId.map (fun s => [s])).getD [] ++
  (t.s.properties.sourceChunk.map (fun s => [s])).getD [] ++
  [t.o.id] ++
  (t.o.name.map (fun s => [s])).getD [] ++
  (t.o.properties.documentId.map (fun s => [s])).getD [] ++
  (t.o.properties.sourceChunk.map (fun s => [s])).getD []

/-- Modelled from the spec: the production base and boosted score of one
semantic triplet per §4.4 steps 2-3: `base = max(matchScore s, matchScore o)`
(0 for a non-seed endpoint); when boosting is enabled, `base > 0`, and any
lower-cased candidate is in the ProvenanceSet, `boosted =
min(1, base * boostFactor)`, otherwise `boosted = base`. -/
def specBoostedScores (opts : QueryOptions) (kgNodes : List KGNode)
    (scores : List ℚ) (t : Triplet) : ℚ × ℚ :=
  let base := qMax (specMatchScore kgNodes scores t.s) (specMatchScore kgNodes scores t.o)
  if opts.crossCheckBoost ∧ 0 < base ∧
      (specCandidates t).any (fun c => decide (jsToLower c ∈ specProvenanceSet kgNodes)) then
    (base, boostScore base opts.crossCheckBoostFactor)
  else
    (base, base)

/-- A node is well formed when none of its string-valued fields is the empty
string (absent optional fields are fine).  The data model (spec §3) gives
every node a non-empty identifying `id`; empty strings are degenerate store
rows on which JS truthiness guards diverge from plain presence tests. -/
def WellFormedNode (n : KGNode) : Prop :=
  jsIsEmpty n.id = false ∧ n.name ≠ some "" ∧
  n.properties.documentId ≠ some "" ∧ n.properties.sourceChunk ≠ some ""

instance (n : KGNode) : Decidable (WellFormedNode n) :=
  inferInstanceAs (Decidable (jsIsEmpty n.id = false ∧ n.name ≠ some "" ∧
    n.properties.documentId ≠ some "" ∧ n.properties.sourceChunk ≠ some ""))

/-! ## Retrieval results, merge/dedup and document filter (multi-doc-chat/chat.ts) -/

/-- The metadata bag of a retrieval result
(`r.node.metadata`, multi-doc-chat/chat.ts and part_003). -/
structure RMetadata where
  documentId : Option String := none
  from_document : Option String := none
  fromDocument : Option String := none
  docId : Option String := none
  document : Option String := none
  contentType : Option String := none
  pageNumber : Option Nat := none
  imageId : Option String := none
deriving DecidableEq

/-- The `node` of a retrieval result: `{id, text, metadata}`. -/
structure RNode where
  id : Option String := none
  text : Option String := none
  metadata : RMetadata := {}
deriving DecidableEq

/-- A retrieval result `{node, score}` as it flows through
merge/dedup/filter (both channels produce this shape). -/
structure RetResult where
  node : RNode
  score : Option ℚ := none
deriving DecidableEq

/-- The effective sort key: `r.score || 0` (a missing score counts as 0). -/
def scoreOf (r : RetResult) : ℚ :=
  r.score.getD 0

/-- The deduplication key of `mergeResults`
(multi-doc-chat/chat.ts lines 149, 158):
`r.node?.text?.slice(0, 200) || r.node?.id` — the first 200 characters of
the text, falling back to the node id when the text is absent or empty. -/
def dedupKey (r : RetResult) : Option String :=
  match r.node.text with
  | some t => if jsIsEmpty (jsTake t 200) then r.node.id else some (jsTake t 200)
  | none => r.node.id

/-- One pass of the dedup loops of `mergeResults` (lines 147-163): keep a
result only when its key has not been seen, then record the key.  The two
source loops (KG results first, then chunk results) share `seen` and
`merged`, so together they are this single pass over the concatenation. -/
def dedupFirst : List RetResult → List (Option String) → List RetResult
  | [], _ => []
  | r :: rs, seen =>
    if dedupKey r ∈ seen then dedupFirst rs seen
    else r :: dedupFirst rs (dedupKey r :: seen)

/-- `mergeResults` of multi-doc-chat/chat.ts lines 143-169: KG results
first, then chunk results, deduplicated first-seen-wins, then sorted by
score descending (`merged.sort((a, b) => (b.score || 0) - (a.score || 0))`). -/
def mergeResults (kgResults chunkResults : List RetResult) : List RetResult :=
  sortDesc scoreOf (dedupFirst (kgResults ++ chunkResults) [])

/-- `getResultDocumentId` of multi-doc-chat/chat.ts lines 189-201: resolve
the document id through the nullish-coalescing chain
`documentId ?? from_document ?? fromDocument ?? docId ?? document`, then
trim; a blank resolution is `null`. -/
def getResultDocumentId (r : RetResult) : Option String :=
  let md := r.node.metadata
  match md.documentId <|> md.from_document <|> md.fromDocument <|> md.docId <|> md.document with
  | none => none
  | some d => if jsIsEmpty (jsTrim d) then none else some (jsTrim d)

/-- The per-result test of `filterResultsByDocument`
(multi-doc-chat/chat.ts lines 282-286): read `metadata.documentId`
directly; a falsy value fails, otherwise case-insensitive substring match
against any filter entry. -/
def docFilterPasses (filts : List String) (r : RetResult) : Bool :=
  match r.node.metadata.documentId with
  | none => false
  | some d =>
    if jsIsEmpty d then false
    else filts.any (fun f => HKV.strContainsSubstr (jsToLower d) (jsToLower f))

/-- `filterResultsByDocument` of multi-doc-chat/chat.ts lines 279-287: an
empty filter list passes everything through unchanged. -/
def filterResultsByDocument (results : List RetResult) (filts : List String) : List RetResult :=
  if filts.isEmpty then results
  else results.filter (docFilterPasses filts)

/-! ## Embedding-call retry policy (pdf-chat/chat.ts lines 43-107,
part_003 lines 51-72) -/

/-- A JavaScript number as it appears in a decoded embedding: a finite
value, or a non-finite/null one (`NaN`, `±Infinity`, `null`), which
`Number.isFinite` rejects. -/
inductive JsNum where
  | fin (q : ℚ)
  | nonfin
deriving DecidableEq

/-- The outcome of one call to the embedding provider, before validation:
the call threw, returned a numeric array, returned a base64 string (decoded
payload byte length and decoded values), or returned something else. -/
inductive EmbedResponse where
  | failure (msg : String)
  | arr (vals : List JsNum)
  | b64 (byteLength : Nat) (vals : List JsNum)
  | other
deriving DecidableEq

deriving instance DecidableEq for Except

/-- `MAX_RETRIES` (pdf-chat/chat.ts line 43). -/
def MAX_RETRIES : Nat := 3

/-- `RETRY_DELAY_MS` (pdf-chat/chat.ts line 44). -/
def RETRY_DELAY_MS : Nat := 2000

/-- The validation applied by pdf-chat's `getTextEmbedding` to a decoded
embedding (lines 85-95): reject non-finite values, then reject a maximum
absolute value above 100. -/
def validateEmbedding (vals : List JsNum) : Except String (List ℚ) :=
  if vals.any (fun v => match v with | .fin _ => false | .nonfin => true) then
    .error "Embedding contains invalid values (null/NaN/Infinity)"
  else
    let qs := vals.filterMap (fun v => match v with | .fin q => some q | .nonfin => none)
    let maxAbs := qs.foldl (fun m v => qMax m (qAbs v)) 0
    if 100 < maxAbs then
      .error "Embedding magnitude too large; likely decode/format mismatch"
    else
      .ok qs

/-- One attempt of pdf-chat's `getTextEmbedding` (lines 56-95): provider
failure propagates; an array is validated; a base64 string is rejected when
its byte length is not divisible by 4, else decoded and validated; any other
shape is an unknown format. -/
def pdfChatAttemptOutcome : EmbedResponse → Except String (List ℚ)
  | .failure msg => .error msg
  | .arr vals => validateEmbedding vals
  | .b64 byteLength vals =>
    if byteLength % 4 ≠ 0 then
      .error "Invalid base64 embedding byteLength (not divisible by 4)"
    else validateEmbedding vals
  | .other => .error "Unknown embedding format returned by provider"

/-- Externally observable events of the retry loop: the numbered request
attempts and the sleeps between them. -/
inductive EmbedEvent where
  | request (attempt : Nat)
  | sleep (ms : Nat)
deriving DecidableEq

/-- The retry loop of pdf-chat's `getTextEmbedding` (lines 53-106),
`for (attempt = 1; attempt <= MAX_RETRIES; attempt++)`: `fuel` is the
number of attempts still allowed (`MAX_RETRIES - attempt + 1`); on failure
with attempts remaining the loop sleeps `RETRY_DELAY_MS * attempt` and
retries, otherwise the last error is thrown. -/
def embedAttempts (responses : Nat → EmbedResponse) :
    Nat → Nat → Except String (List ℚ) × List EmbedEvent
  | 0, _ => (.error "no attempts", [])
  | fuel + 1, attempt =>
    match pdfChatAttemptOutcome (responses attempt) with
    | .ok e => (.ok e, [.request attempt])
    | .error msg =>
      match fuel with
      | 0 => (.error msg, [.request attempt])
      | fuel' + 1 =>
        let rest := embedAttempts responses (fuel' + 1) (attempt + 1)
        (rest.1, .request attempt :: .sleep (RETRY_DELAY_MS * attempt) :: rest.2)

/-- pdf-chat's `embedModel.getTextEmbedding`: run the retry loop from
attempt 1 with `MAX_RETRIES` attempts available, returning the result and
the event trace. -/
def pdfChatGetTextEmbedding (responses : Nat → EmbedResponse) :
    Except String (List ℚ) × List EmbedEvent :=
  embedAttempts responses MAX_RETRIES 1

/-- `embedModel.getTextEmbedding` of part_003 lines 52-72: a single
provider call with no retry loop and no value validation; an unknown format
throws, a provider failure propagates. -/
def vizGetTextEmbedding (response : EmbedResponse) :
    Except String (List JsNum) × List EmbedEvent :=
  match response with
  | .failure msg => (.error msg, [.request 1])
  | .arr vals => (.ok vals, [.request 1])
  | .b64 _ vals => (.ok vals, [.request 1])
  | .other => (.error "Unknown embedding format", [.request 1])

/-- Count of request events in a trace. -/
def requestCount (evs : List EmbedEvent) : Nat :=
  (evs.filter (fun e => match e with | .request _ => true | .sleep _ => false)).length

/-! ## Query entry points and their network calls
(part_003 lines 197-440, pdf-chat/chat.ts lines 345-456) -/

/-- An outbound network call issued while serving one query. -/
inductive NetCall where
  | embedding (text : String)
  | vectorQuery (topK : Nat)
  | getRelMap (depth : Nat) (limit : Nat)
  | sqlQuery
  | indexQuery (q : String)
  | chatCompletion
deriving DecidableEq

/-- The external collaborators of one query run: what the provider and the
graph store would answer.  All stages are deterministic given these. -/
structure StoreOracle where
  vectorMatches : List KGNode × List ℚ
  relMap : List Triplet
  indexResults : List RetResult

/-- The parsed body of `POST /api/query`: `query` is `none` when the field
is absent or not a string (part_003 line 201 checks both). -/
structure QueryBody where
  query : Option String := none
  graphName : Option String := none

/-- The visible outcome of the `/api/query` handler. -/
inductive ApiResponse where
  | badRequest (msg : String)
  | unavailable (msg : String)
  | ok (answer : String)
deriving DecidableEq

/-- The `/api/query` handler of part_003 lines 197-440, with the network
calls it issues, in order: reject a missing/empty query with 400 before
anything else; reject a missing connection with 503; otherwise embed the
query, run the vector search, expand the graph, look up labels in the
vectors table when any semantic-triplet endpoint id was collected, run the
index query, look up each distinct image id, and call the chat model when
the index returned results. -/
def apiQueryHandler (oracle : StoreOracle) (connected : Bool) (body : QueryBody) :
    ApiResponse × List NetCall :=
  match body.query with
  | none => (.badRequest "Query is required", [])
  | some q =>
    if jsIsEmpty q then (.badRequest "Query is required", [])
    else if !connected then (.unavailable "Database not connected", [])
    else
      let semantic := vizSemanticTriplets oracle.relMap
      let tripletNodeIds := semantic.flatMap (fun t =>
        (if jsIsEmpty t.s.id then [] else [t.s.id]) ++
        (if jsIsEmpty t.o.id then [] else [t.o.id]))
      let vectorLookup : List NetCall :=
        if tripletNodeIds.isEmpty then [] else [.sqlQuery]
      let results := oracle.indexResults
      let imageIds := (results.filterMap (fun r =>
        if r.node.metadata.contentType = some "image" then r.node.metadata.imageId
        else none)).dedup
      let imageLookups : List NetCall := imageIds.map (fun _ => .sqlQuery)
      let answerCall : List NetCall :=
        if results.isEmpty then [] else [.chatCompletion]
      let answer :=
        if results.isEmpty then
          "I don't have enough information to answer that question."
        else "generated"
      (.ok answer,
        .embedding q :: .vectorQuery 5 :: .getRelMap 2 50 ::
          (vectorLookup ++ [.indexQuery q] ++ imageLookups ++ answerCall))

/-- The commands the pdf-chat REPL dispatches on
(pdf-chat/chat.ts lines 345-431). -/
inductive ChatCommand where
  | reprompt
  | exitCmd
  | helpCmd
  | autoExplainToggle
  | explainLast
  | explainQ (q : String)
  | ask (q : String)
deriving DecidableEq

/-- The dispatch of one line of REPL input (pdf-chat/chat.ts lines 346-421):
trim, and an empty input merely re-prompts; the commands are matched on the
lower-cased input; `explain <q>` takes the rest of the raw input, trimmed. -/
def parseChatInput (input : String) : ChatCommand :=
  let query := jsTrim input
  let queryLower := jsToLower query
  if jsIsEmpty query then .reprompt
  else if queryLower = "exit" ∨ queryLower = "quit" then .exitCmd
  else if queryLower = "help" then .helpCmd
  else if queryLower = "auto-explain" then .autoExplainToggle
  else if queryLower = "explain-last" then .explainLast
  else if jsStartsWith queryLower "explain " then .explainQ (jsTrim (jsDrop query 8))
  else .ask query

/-- The network calls of one `explainRetrieval` run
(pdf-chat/chat.ts lines 180-299): embed, vector query, and — only when the
vector query matched anything — the relation-map expansion. -/
def explainCalls (oracle : StoreOracle) (opts : QueryOptions) (q : String) : List NetCall :=
  .embedding q :: .vectorQuery opts.similarityTopK ::
    (if (oracle.vectorMatches.1).isEmpty then []
     else [.getRelMap opts.pathDepth opts.limit])

/-- The network calls of answering one question
(pdf-chat/chat.ts lines 431-437): the index query, then the chat completion
— which `generateResponse` skips when there are no results (lines 141-143). -/
def askCalls (oracle : StoreOracle) (q : String) : List NetCall :=
  .indexQuery q :: (if oracle.indexResults.isEmpty then [] else [.chatCompletion])

/-- The network calls issued by one REPL turn, by dispatched command
(pdf-chat/chat.ts lines 350-456): plain commands issue none; `explain-last`
runs only when a previous question exists; `explain` with an empty rest
prints usage; a question runs the optional auto-explain then the query. -/
def cliTurnCalls (oracle : StoreOracle) (opts : QueryOptions)
    (autoExplain : Bool) (lastQuestion : Option String) :
    ChatCommand → List NetCall
  | .reprompt => []
  | .exitCmd => []
  | .helpCmd => []
  | .autoExplainToggle => []
  | .explainLast =>
    match lastQuestion with
    | none => []
    | some q => explainCalls oracle opts q ++ askCalls oracle q
  | .explainQ q =>
    if jsIsEmpty q then [] else explainCalls oracle opts q ++ askCalls oracle q
  | .ask q =>
    (if autoExplain then explainCalls oracle opts q else []) ++ askCalls oracle q

/-! ## Concrete fixtures used to evaluate the definitions -/

/-- Seed node `A` with a document id (spec §8 example). -/
def nodeA : KGNode :=
  { id := "A", properties := { documentId := some "doc1" } }

/-- Seed node `B`. -/
def nodeB : KGNode :=
  { id := "B" }

/-- Non-seed node `C` sharing `A`'s document id. -/
def nodeC : KGNode :=
  { id := "C", properties := { documentId := some "doc1" } }

/-- The triplet `(A, "RELATED_TO", C)` of the spec §8 example. -/
def tripletAC : Triplet :=
  { s := nodeA, p := { id := "RELATED_TO", label := some "RELATED_TO" }, o := nodeC }

/-- A triplet carrying the reserved bookkeeping predicate `FROM_DOCUMENT`. -/
def tripletFD : Triplet :=
  { s := { id := "X" }, p := { id := "e1", label := some "FROM_DOCUMENT" }, o := { id := "Y" } }

/-- A plain semantic triplet. -/
def tripletSem : Triplet :=
  { s := { id := "X" }, p := { id := "e2", label := some "MENTIONS" }, o := { id := "Y" } }

/-- A degenerate vector-matched node whose id is the empty string: the
store matched it with score 0.9, but `if (node?.id)` keeps it out of the
provenance set. -/
def emptyIdNode : KGNode :=
  { id := "" }

/-- A triplet whose subject is the degenerate empty-id seed. -/
def tripletEmptyId : Triplet :=
  { s := { id := "" }, p := { id := "e3", label := some "MENTIONS" }, o := { id := "Z" } }

/-- A retrieval result whose document id arrives under `from_document`
(the key written by graph expansion), with no `documentId`. -/
def resFromDocument : RetResult :=
  { node := { id := some "n1", text := some "chunk one",
              metadata := { from_document := some "Installation-Manual" } },
    score := some (mkRat 4 5) }

/-- A retrieval result with a plain `documentId`. -/
def resWithDocumentId : RetResult :=
  { node := { id := some "n2", text := some "chunk two",
              metadata := { documentId := some "Installation-Manual" } },
    score := some (mkRat 3 5) }

/-- A provider that fails all three attempts, each differently: a transport
error, then a non-finite value, then an out-of-range magnitude. -/
def flakyResponses : Nat → EmbedResponse := fun attempt =>
  if attempt = 1 then .failure "connect ETIMEDOUT"
  else if attempt = 2 then .arr [.nonfin]
  else .arr [.fin 200]

/-! ## Bridges between the executable arithmetic and the ambient order -/

theorem qMin_eq_min (a b : ℚ) : qMin a b = min a b :=
  (min_def a b).symm

theorem qMax_eq_max (a b : ℚ) : qMax a b = max a b :=
  (max_def a b).symm

theorem qMul_eq_mul (a b : ℚ) : qMul a b = a * b := by
  rw [qMul, Rat.mkRat_eq_div]
  push_cast
  rw [← div_mul_div_comm, Rat.num_div_den, Rat.num_div_den]

/-! ## The stable descending sort -/

theorem insertDesc_perm {α : Type} (keyOf : α → ℚ) (x : α) (l : List α) :
    List.Perm (insertDesc keyOf x l) (x :: l) := by
  induction l with
  | nil => simp [insertDesc]
  | cons y ys ih =>
    rw [insertDesc]
    by_cases h : keyOf y ≤ keyOf x
    · rw [if_pos h]
    · rw [if_neg h]
      exact (ih.cons y).trans (List.Perm.swap x y ys)

theorem sortDesc_perm {α : Type} (keyOf : α → ℚ) (l : List α) :
    List.Perm (sortDesc keyOf l) l := by
  induction l with
  | nil => simp [sortDesc]
  | cons x xs ih =>
    rw [sortDesc]
    exact (insertDesc_perm keyOf x (sortDesc keyOf xs)).trans (ih.cons x)

theorem mem_sortDesc {α : Type} (keyOf : α → ℚ) (l : List α) (x : α) :
    x ∈ sortDesc keyOf l ↔ x ∈ l :=
  (sortDesc_perm keyOf l).mem_iff

theorem sortedDesc_insertDesc {α : Type} (keyOf : α → ℚ) (x : α) (l : List α)
    (hl : SortedDesc keyOf l) : SortedDesc keyOf (insertDesc keyOf x l) := by
  induction l with
  | nil => simp [insertDesc, SortedDesc]
  | cons y ys ih =>
    rw [SortedDesc, List.pairwise_cons] at hl
    rw [insertDesc]
    by_cases h : keyOf y ≤ keyOf x
    · rw [if_pos h]
      refine List.Pairwise.cons ?_ (List.Pairwise.cons hl.1 hl.2)
      intro z hz
      rcases List.mem_cons.mp hz with hz | hz
      · subst hz
        exact h
      · exact le_trans (hl.1 z hz) h
    · rw [if_neg h]
      refine List.Pairwise.cons ?_ (ih hl.2)
      intro z hz
      have hz' : z ∈ x :: ys := (insertDesc_perm keyOf x ys).mem_iff.mp hz
      rcases List.mem_cons.mp hz' with hz2 | hz2
      · subst hz2
        exact le_of_lt (lt_of_not_le h)
      · exact hl.1 z hz2

theorem sortedDesc_sortDesc {α : Type} (keyOf : α → ℚ) (l : List α) :
    SortedDesc keyOf (sortDesc keyOf l) := by
  induction l with
  | nil => exact List.Pairwise.nil
  | cons x xs ih => exact sortedDesc_insertDesc keyOf x (sortDesc keyOf xs) ih

theorem insertDesc_of_forall_le {α : Type} (keyOf : α → ℚ) (x : α) (l : List α)
    (h : ∀ z ∈ l, keyOf z ≤ keyOf x) : insertDesc keyOf x l = x :: l := by
  cases l with
  | nil => rfl
  | cons y ys =>
    rw [insertDesc, if_pos (h y (List.mem_cons_self y ys))]

theorem insertDesc_filter {α : Type} (keyOf : α → ℚ) (p : α → Bool) (x : α)
    (l : List α) (hl : SortedDesc keyOf l) :
    (insertDesc keyOf x l).filter p =
      if p x then insertDesc keyOf x (l.filter p) else l.filter p := by
  induction l with
  | nil =>
    by_cases hx : p x <;> simp [insertDesc, List.filter_cons, hx]
  | cons y ys ih =>
    rw [SortedDesc, List.pairwise_cons] at hl
    rw [insertDesc]
    by_cases h : keyOf y ≤ keyOf x
    · rw [if_pos h]
      by_cases hx : p x
      · rw [if_pos hx, List.filter_cons_of_pos hx,
          insertDesc_of_forall_le keyOf x ((y :: ys).filter p)]
        intro z hz
        have hz' : z ∈ y :: ys := List.mem_of_mem_filter hz
        rcases List.mem_cons.mp hz' with hz2 | hz2
        · subst hz2
          exact h
        · exact le_trans (hl.1 z hz2) h
      · rw [if_neg hx, List.filter_cons_of_neg hx]
    · rw [if_neg h]
      by_cases hy : p y
      · rw [List.filter_cons_of_pos hy, List.filter_cons_of_pos hy, ih hl.2]
        by_cases hx : p x
        · rw [if_pos hx, if_pos hx, insertDesc, if_neg h]
        · rw [if_neg hx, if_neg hx]
      · rw [List.filter_cons_of_neg hy, List.filter_cons_of_neg hy, ih hl.2]

theorem sortDesc_filter {α : Type} (keyOf : α → ℚ) (p : α → Bool) (l : List α) :
    (sortDesc keyOf l).filter p = sortDesc keyOf (l.filter p) := by
  induction l with
  | nil => rfl
  | cons x xs ih =>
    rw [sortDesc, insertDesc_filter keyOf p x (sortDesc keyOf xs)
      (sortedDesc_sortDesc keyOf xs), ih]
    by_cases hx : p x
    · rw [if_pos hx, List.filter_cons_of_pos hx, sortDesc]
    · rw [if_neg hx, List.filter_cons_of_neg hx]

/-! ## Deduplication -/

theorem dedupFirst_filter_key (l : List RetResult) (seen : List (Option String))
    (k : Option String) :
    (dedupFirst l seen).filter (fun r => decide (dedupKey r = k)) =
      if k ∈ seen then [] else (l.filter (fun r => decide (dedupKey r = k))).take 1 := by
  induction l generalizing seen with
  | nil =>
    by_cases hk : k ∈ seen <;> simp [dedupFirst, hk]
  | cons r rs ih =>
    rw [dedupFirst]
    by_cases hseen : dedupKey r ∈ seen
    · rw [if_pos hseen, ih]
      by_cases hk : k ∈ seen
      · rw [if_pos hk, if_pos hk]
      · have hrk : ¬ dedupKey r = k := fun h => hk (h ▸ hseen)
        rw [if_neg hk, if_neg hk, List.filter_cons_of_neg (by simpa using hrk)]
    · rw [if_neg hseen]
      by_cases hrk : dedupKey r = k
      · have hk : ¬ k ∈ seen := fun h => hseen (hrk ▸ h)
        rw [List.filter_cons_of_pos (by simpa using hrk), ih, if_pos (by simp [hrk]),
          if_neg hk, List.filter_cons_of_pos (by simpa using hrk), List.take]
        simp
      · rw [List.filter_cons_of_neg (by simpa using hrk), ih]
        have hcons : (k ∈ dedupKey r :: seen) ↔ k ∈ seen := by
          rw [List.mem_cons]
          constructor
          · intro h
            rcases h with h | h
            · exact absurd h.symm hrk
            · exact h
          · exact Or.inr
        by_cases hk : k ∈ seen
        · rw [if_pos (hcons.mpr hk), if_pos hk]
        · rw [if_neg (fun h => hk (hcons.mp h)), if_neg hk,
            List.filter_cons_of_neg (by simpa using hrk)]

/-! ## Scoring helper lemmas -/

theorem scoreTriplet_triplet (opts : QueryOptions) (kgNodes : List KGNode)
    (scores : List ℚ) (prov : List String) (t : Triplet) :
    (scoreTriplet opts kgNodes scores prov t).triplet = t := by
  rw [scoreTriplet]
  split
  · split <;> rfl
  · rfl

theorem scoreTriplet_baseScore (opts : QueryOptions) (kgNodes : List KGNode)
    (scores : List ℚ) (prov : List String) (t : Triplet) :
    (scoreTriplet opts kgNodes scores prov t).baseScore =
      qMax (endpointScore kgNodes scores t.s.id) (endpointScore kgNodes scores t.o.id) := by
  rw [scoreTriplet]
  split
  · split <;> rfl
  · rfl

theorem scoreTriplet_score_of_boost (opts : QueryOptions) (kgNodes : List KGNode)
    (scores : List ℚ) (prov : List String) (t : Triplet)
    (hb : opts.crossCheckBoost = true)
    (hpos : 0 < qMax (endpointScore kgNodes scores t.s.id) (endpointScore kgNodes scores t.o.id))
    (hsb : shouldBoost prov t.s t.o = true) :
    (scoreTriplet opts kgNodes scores prov t).score =
      boostScore
        (qMax (endpointScore kgNodes scores t.s.id) (endpointScore kgNodes scores t.o.id))
        opts.crossCheckBoostFactor := by
  rw [scoreTriplet]
  simp only [hb, hpos, and_self, if_true, true_and, hsb, if_pos]

theorem jsIndexOf_some_mem (l : List String) (x : String) (i : Nat)
    (h : HKV.jsIndexOf l x = some i) : x ∈ l := by
  induction l generalizing i with
  | nil => simp [HKV.jsIndexOf] at h
  | cons y ys ih =>
    rw [HKV.jsIndexOf] at h
    by_cases hy : y = x
    · exact hy ▸ List.mem_cons_self y ys
    · rw [if_neg hy] at h
      rcases Option.map_eq_some'.mp h with ⟨j, hj, _⟩
      exact List.mem_cons_of_mem y (ih j hj)

theorem endpointScore_pos_mem (kgNodes : List KGNode) (scores : List ℚ) (x : String)
    (h : 0 < endpointScore kgNodes scores x) : ∃ n ∈ kgNodes, n.id = x := by
  rw [endpointScore] at h
  rcases hidx : HKV.jsIndexOf (kgNodes.map (fun n => n.id)) x with _ | i
  · rw [hidx] at h
    exact absurd h (lt_irrefl 0)
  · have hx : x ∈ kgNodes.map (fun n => n.id) := jsIndexOf_some_mem _ x i hidx
    rcases List.mem_map.mp hx with ⟨n, hn, hnx⟩
    exact ⟨n, hn, hnx⟩

theorem mem_buildProvenanceSet_id (kgNodes : List KGNode) (n : KGNode)
    (hn : n ∈ kgNodes) (hid : jsIsEmpty n.id = false) :
    jsToLower n.id ∈ buildProvenanceSet kgNodes := by
  rw [buildProvenanceSet, List.mem_flatMap]
  refine ⟨n, hn, ?_⟩
  rw [nodeProvenanceEntries, hid]
  simp

theorem shouldBoost_of_subject_id (prov : List String) (s o : KGNode)
    (hid : jsIsEmpty s.id = false) (hmem : jsToLower s.id ∈ prov) :
    shouldBoost prov s o = true := by
  rw [shouldBoost, hid]
  simp [hmem]

theorem shouldBoost_of_object_id (prov : List String) (s o : KGNode)
    (hid : jsIsEmpty o.id = false) (hmem : jsToLower o.id ∈ prov) :
    shouldBoost prov s o = true := by
  rw [shouldBoost, hid]
  simp [hmem]

/-! ## String bridges -/

theorem jsIsEmpty_eq_true_iff (s : String) : jsIsEmpty s = true ↔ s = "" := by
  cases s with
  | mk data =>
    rw [jsIsEmpty]
    simp [List.isEmpty_iff, String.ext_iff]

theorem jsIsEmpty_eq_false_iff (s : String) : jsIsEmpty s = false ↔ s ≠ "" := by
  rw [← Bool.not_eq_true, not_iff_not, jsIsEmpty_eq_true_iff]

theorem startsWithChars_iff (l₁ l₂ : List Char) :
    startsWithChars l₁ l₂ = true ↔ l₁ <+: l₂ := by
  induction l₁ generalizing l₂ with
  | nil => simp [startsWithChars]
  | cons c cs ih =>
    cases l₂ with
    | nil => simp [startsWithChars]
    | cons d ds =>
      rw [startsWithChars, Bool.and_eq_true, beq_iff_eq, ih, List.cons_prefix_cons]

theorem hasSubChars_iff (hay needle : List Char) :
    hasSubChars hay needle = true ↔ needle <:+: hay := by
  induction hay with
  | nil => simp [hasSubChars, List.isEmpty_iff]
  | cons c rest ih =>
    rw [hasSubChars, Bool.or_eq_true, startsWithChars_iff, ih]
    exact (List.infix_cons_iff).symm

theorem strContainsSubstr_iff (hay needle : String) :
    strContainsSubstr hay needle = true ↔ needle.data <:+: hay.data := by
  rw [strContainsSubstr, hasSubChars_iff]

/-! ## Claim theorems and their supporting facts -/

/-- C3: `mergeResults` deduplicates by key with first-seen-wins semantics —
for every key, what survives is exactly the first occurrence of that key in
`kgResults ++ chunkResults`, whatever the later duplicates' scores — and the
merged output is sorted descending by score. -/
theorem mergeResults_first_seen_wins_and_sorted
    (kgResults chunkResults : List RetResult) (k : Option String) :
    (mergeResults kgResults chunkResults).filter (fun r => decide (dedupKey r = k)) =
      ((kgResults ++ chunkResults).filter (fun r => decide (dedupKey r = k))).take 1 ∧
    SortedDesc scoreOf (mergeResults kgResults chunkResults) := by
  constructor
  · rw [mergeResults, sortDesc_filter, dedupFirst_filter_key,
      if_neg (List.not_mem_nil k)]
    cases h : (kgResults ++ chunkResults).filter (fun r => decide (dedupKey r = k)) with
    | nil => rfl
    | cons a rest => rfl
  · rw [mergeResults]
    exact sortedDesc_sortDesc scoreOf _

/-- C7: the document filter commutes with the descending-by-score stable
sort used by the merge, and filtering only ever deletes elements (it is a
sublist, so survivors keep their relative order). -/
theorem document_filter_commutes_with_sort
    (results : List RetResult) (filts : List String) :
    filterResultsByDocument (sortDesc scoreOf results) filts =
      sortDesc scoreOf (filterResultsByDocument results filts) ∧
    (filterResultsByDocument results filts).Sublist results := by
  constructor
  · rw [filterResultsByDocument, filterResultsByDocument]
    by_cases h : filts.isEmpty
    · rw [if_pos h, if_pos h]
    · rw [if_neg h, if_neg h, sortDesc_filter]
  · rw [filterResultsByDocument]
    by_cases h : filts.isEmpty
    · rw [if_pos h]
    · rw [if_neg h]
      exact List.filter_sublist results

/-- C10: for `boostFactor ≥ 1` and `base ∈ (0, 1]`, the boosted score
`min(1, base * boostFactor)` is at least the base and at most 1. -/
theorem boostScore_between_base_and_one (b f : ℚ)
    (hf : 1 ≤ f) (hb0 : 0 < b) (hb1 : b ≤ 1) :
    b ≤ boostScore b f ∧ boostScore b f ≤ 1 := by
  rw [boostScore, qMin_eq_min, qMul_eq_mul]
  exact ⟨le_min hb1 (le_mul_of_one_le_right (le_of_lt hb0) hf), min_le_left 1 (b * f)⟩

/-- Witness: C10 evaluated at `base = 0.9`, `boostFactor = 1.25`. -/
theorem boostScore_between_base_and_one_witness :
    (1 : ℚ) ≤ mkRat 5 4 ∧ 0 < (mkRat 9 10 : ℚ) ∧ (mkRat 9 10 : ℚ) ≤ 1 ∧
    ((mkRat 9 10 : ℚ) ≤ boostScore (mkRat 9 10) (mkRat 5 4) ∧
      boostScore (mkRat 9 10) (mkRat 5 4) ≤ 1) :=
  ⟨by decide, by decide, by decide,
    boostScore_between_base_and_one (mkRat 9 10) (mkRat 5 4)
      (by decide) (by decide) (by decide)⟩

/-- C4: on matches `A ↦ 0.9`, `B ↦ 0.7` and the triplet
`(A, RELATED_TO, C)` with `C.documentId = A.documentId`, boosting enabled
with factor 1.25, the replay computes base `0.9 = max(0.9, 0)` and final
score `1 = min(1, 0.9 * 1.25)`; the full ranked output is that single
scored triplet. -/
theorem explain_example_base_and_boosted_score :
    (mkRat 9 10 : ℚ) = 9 / 10 ∧
    DEFAULT_QUERY_OPTIONS.crossCheckBoost = true ∧
    DEFAULT_QUERY_OPTIONS.crossCheckBoostFactor = 5 / 4 ∧
    (scoreTriplet DEFAULT_QUERY_OPTIONS [nodeA, nodeB] [mkRat 9 10, mkRat 7 10]
        (explainProvenanceSet DEFAULT_QUERY_OPTIONS [nodeA, nodeB]) tripletAC).baseScore =
      mkRat 9 10 ∧
    (scoreTriplet DEFAULT_QUERY_OPTIONS [nodeA, nodeB] [mkRat 9 10, mkRat 7 10]
        (explainProvenanceSet DEFAULT_QUERY_OPTIONS [nodeA, nodeB]) tripletAC).score = 1 ∧
    explainScoredTriplets DEFAULT_QUERY_OPTIONS [nodeA, nodeB] [mkRat 9 10, mkRat 7 10]
        [tripletAC] =
      [{ triplet := tripletAC, baseScore := mkRat 9 10, score := 1,
         boostedReason := some "provenance match" }] := by
  have h1 : (mkRat 9 10 : ℚ) = 9 / 10 := by norm_num [Rat.mkRat_eq_div]
  have h3 : DEFAULT_QUERY_OPTIONS.crossCheckBoostFactor = 5 / 4 := by
    norm_num [DEFAULT_QUERY_OPTIONS, Rat.mkRat_eq_div]
  exact ⟨h1, by decide, h3, by decide, by decide, by decide⟩

theorem explainScoredTriplets_eq (opts : QueryOptions) (kgNodes : List KGNode)
    (scores : List ℚ) (triplets : List Triplet) :
    explainScoredTriplets opts kgNodes scores triplets =
      sortDesc (fun r => r.score)
        ((if (triplets.filter (fun t => !isMetadataPredicate (predOf t))).isEmpty
            then triplets
            else triplets.filter (fun t => !isMetadataPredicate (predOf t))).map
          (scoreTriplet opts kgNodes scores (explainProvenanceSet opts kgNodes))) :=
  rfl

/-- C2 counterexample: when the expansion returns only metadata triplets,
the replay falls back to ranking ALL of them, so the reserved
`FROM_DOCUMENT` triplet appears in the ranked output. -/
theorem reserved_predicate_ranked_counterexample :
    isMetadataPredicate (predOf tripletFD) = true ∧
    (explainScoredTriplets DEFAULT_QUERY_OPTIONS [nodeB] [mkRat 7 10] [tripletFD]).map
        (fun r => r.triplet) = [tripletFD] :=
  ⟨by decide, by decide⟩

/-- C2 (amended): the visualization server's semantic set never contains a
bookkeeping-predicate triplet — unconditionally, even when every returned
triplet is metadata; the explain replay's ranked output never contains one
PROVIDED at least one semantic triplet was returned by the expansion
(otherwise the replay deliberately falls back to ranking all triplets). -/
theorem no_reserved_predicate_in_semantic_output
    (opts : QueryOptions) (kgNodes : List KGNode) (scores : List ℚ)
    (ts : List Triplet) :
    (vizSemanticTriplets ts).all (fun t => !isMetadataPredicate (predOf t)) = true ∧
    (ts.any (fun t => !isMetadataPredicate (predOf t)) = true →
      (explainScoredTriplets opts kgNodes scores ts).all
        (fun r => !isMetadataPredicate (predOf r.triplet)) = true) := by
  constructor
  · rw [List.all_eq_true]
    intro t ht
    exact (List.mem_filter.mp ht).2
  · intro hany
    have hne : (ts.filter (fun t => !isMetadataPredicate (predOf t))).isEmpty = false := by
      rcases List.any_eq_true.mp hany with ⟨t, ht, hp⟩
      have hmem : t ∈ ts.filter (fun t => !isMetadataPredicate (predOf t)) :=
        List.mem_filter.mpr ⟨ht, hp⟩
      cases hfil : ts.filter (fun t => !isMetadataPredicate (predOf t)) with
      | nil =>
        rw [hfil] at hmem
        exact absurd hmem (List.not_mem_nil t)
      | cons a l => rfl
    rw [List.all_eq_true]
    intro r hr
    rw [explainScoredTriplets_eq, if_neg (by simp [hne])] at hr
    have hr' := (mem_sortDesc _ _ r).mp hr
    rcases List.mem_map.mp hr' with ⟨t, htmem, hteq⟩
    rw [← hteq, scoreTriplet_triplet]
    exact (List.mem_filter.mp htmem).2

/-- Witness: the amended C2 — the visualization filter on an all-metadata
expansion (the case where the replay falls back), and the replay on an
expansion that returned one semantic and one `FROM_DOCUMENT` triplet. -/
theorem no_reserved_predicate_in_semantic_output_witness :
    (vizSemanticTriplets [tripletFD]).all
      (fun t => !isMetadataPredicate (predOf t)) = true ∧
    ([tripletSem, tripletFD].any (fun t => !isMetadataPredicate (predOf t)) = true) ∧
    (explainScoredTriplets DEFAULT_QUERY_OPTIONS [nodeB] [mkRat 7 10]
        [tripletSem, tripletFD]).all
      (fun r => !isMetadataPredicate (predOf r.triplet)) = true :=
  ⟨(no_reserved_predicate_in_semantic_output DEFAULT_QUERY_OPTIONS [nodeB] [mkRat 7 10]
      [tripletFD]).1,
    by decide,
    (no_reserved_predicate_in_semantic_output DEFAULT_QUERY_OPTIONS [nodeB] [mkRat 7 10]
      [tripletSem, tripletFD]).2 (by decide)⟩

/-- C5 counterexample: a vector match with an empty-string id gives the
triplet a positive base score via `indexOf`, yet `if (node?.id)` never put
it into the provenance set, so the eligibility check fails and the score
stays unboosted. -/
theorem positive_base_without_boost_counterexample :
    DEFAULT_QUERY_OPTIONS.crossCheckBoost = true ∧
    (scoreTriplet DEFAULT_QUERY_OPTIONS [emptyIdNode] [mkRat 9 10]
        (explainProvenanceSet DEFAULT_QUERY_OPTIONS [emptyIdNode])
        tripletEmptyId).baseScore = mkRat 9 10 ∧
    (0 : ℚ) < mkRat 9 10 ∧
    (scoreTriplet DEFAULT_QUERY_OPTIONS [emptyIdNode] [mkRat 9 10]
        (explainProvenanceSet DEFAULT_QUERY_OPTIONS [emptyIdNode])
        tripletEmptyId).score = mkRat 9 10 ∧
    boostScore (mkRat 9 10) DEFAULT_QUERY_OPTIONS.crossCheckBoostFactor = 1 ∧
    (mkRat 9 10 : ℚ) ≠ 1 :=
  ⟨by decide, by decide, by decide, by decide, by decide, by decide⟩

/-- C5 (amended): with boosting enabled, whenever every vector-matched node
has a non-empty id, every triplet with positive base score passes the
provenance-membership test, so its final score is exactly
`min(1, base * boostFactor)`. -/
theorem positive_base_always_boosted_for_nonempty_ids
    (opts : QueryOptions) (kgNodes : List KGNode) (scores : List ℚ) (t : Triplet)
    (hb : opts.crossCheckBoost = true)
    (hids : kgNodes.all (fun n => !jsIsEmpty n.id) = true)
    (hpos : 0 < (scoreTriplet opts kgNodes scores
      (explainProvenanceSet opts kgNodes) t).baseScore) :
    (scoreTriplet opts kgNodes scores (explainProvenanceSet opts kgNodes) t).score =
      boostScore
        (scoreTriplet opts kgNodes scores (explainProvenanceSet opts kgNodes) t).baseScore
        opts.crossCheckBoostFactor := by
  have hids' : ∀ n ∈ kgNodes, jsIsEmpty n.id = false := by
    intro n hn
    have := List.all_eq_true.mp hids n hn
    simpa using this
  rw [scoreTriplet_baseScore] at hpos
  have hprov : explainProvenanceSet opts kgNodes = buildProvenanceSet kgNodes := by
    rw [explainProvenanceSet, hb]
    simp
  have hmax : 0 < endpointScore kgNodes scores t.s.id ∨
      0 < endpointScore kgNodes scores t.o.id := by
    rw [qMax_eq_max] at hpos
    exact lt_max_iff.mp hpos
  have hsb : shouldBoost (explainProvenanceSet opts kgNodes) t.s t.o = true := by
    rcases hmax with h | h
    · rcases endpointScore_pos_mem kgNodes scores t.s.id h with ⟨n, hn, hnid⟩
      have hid : jsIsEmpty t.s.id = false := hnid ▸ hids' n hn
      have hmem : jsToLower t.s.id ∈ explainProvenanceSet opts kgNodes := by
        rw [hprov]
        exact hnid ▸ mem_buildProvenanceSet_id kgNodes n hn (hids' n hn)
      exact shouldBoost_of_subject_id _ t.s t.o hid hmem
    · rcases endpointScore_pos_mem kgNodes scores t.o.id h with ⟨n, hn, hnid⟩
      have hid : jsIsEmpty t.o.id = false := hnid ▸ hids' n hn
      have hmem : jsToLower t.o.id ∈ explainProvenanceSet opts kgNodes := by
        rw [hprov]
        exact hnid ▸ mem_buildProvenanceSet_id kgNodes n hn (hids' n hn)
      exact shouldBoost_of_object_id _ t.s t.o hid hmem
  rw [scoreTriplet_baseScore]
  exact scoreTriplet_score_of_boost opts kgNodes scores _ t hb hpos hsb

/-- Witness: the amended C5 applied to the spec's example data. -/
theorem positive_base_always_boosted_for_nonempty_ids_witness :
    DEFAULT_QUERY_OPTIONS.crossCheckBoost = true ∧
    ([nodeA, nodeB].all (fun n => !jsIsEmpty n.id) = true) ∧
    0 < (scoreTriplet DEFAULT_QUERY_OPTIONS [nodeA, nodeB] [mkRat 9 10, mkRat 7 10]
      (explainProvenanceSet DEFAULT_QUERY_OPTIONS [nodeA, nodeB]) tripletAC).baseScore ∧
    (scoreTriplet DEFAULT_QUERY_OPTIONS [nodeA, nodeB] [mkRat 9 10, mkRat 7 10]
        (explainProvenanceSet DEFAULT_QUERY_OPTIONS [nodeA, nodeB]) tripletAC).score =
      boostScore
        (scoreTriplet DEFAULT_QUERY_OPTIONS [nodeA, nodeB] [mkRat 9 10, mkRat 7 10]
          (explainProvenanceSet DEFAULT_QUERY_OPTIONS [nodeA, nodeB]) tripletAC).baseScore
        DEFAULT_QUERY_OPTIONS.crossCheckBoostFactor :=
  ⟨by decide, by decide, by decide,
    positive_base_always_boosted_for_nonempty_ids DEFAULT_QUERY_OPTIONS [nodeA, nodeB]
      [mkRat 9 10, mkRat 7 10] tripletAC (by decide) (by decide) (by decide)⟩

theorem docFilterPasses_iff (filts : List String) (r : RetResult) :
    docFilterPasses filts r = true ↔
      ∃ d, r.node.metadata.documentId = some d ∧ jsIsEmpty d = false ∧
        ∃ f ∈ filts, (jsToLower f).data <:+: (jsToLower d).data := by
  cases hd : r.node.metadata.documentId with
  | none => simp [docFilterPasses, hd]
  | some d =>
    by_cases he : jsIsEmpty d
    · simp [docFilterPasses, hd, he]
    · have he' : jsIsEmpty d = false := by
        revert he
        cases jsIsEmpty d <;> simp
      simp only [docFilterPasses, hd, he', Bool.false_eq_true, if_false,
        List.any_eq_true]
      constructor
      · rintro ⟨f, hf, hsub⟩
        exact ⟨d, rfl, he', f, hf, (strContainsSubstr_iff _ _).mp hsub⟩
      · rintro ⟨d', hd', hde, f, hf, hinf⟩
        obtain rfl : d = d' := Option.some.inj hd'
        exact ⟨f, hf, (strContainsSubstr_iff _ _).mpr hinf⟩

/-- C6 counterexample: a result whose document id arrives under the
`from_document` metadata key resolves (via `getResultDocumentId`) to
`"Installation-Manual"`, which contains the filter substring
`"installation"` case-insensitively — yet `filterResultsByDocument` drops
it, because the filter reads only `metadata.documentId`. -/
theorem document_filter_ignores_resolved_id_counterexample :
    getResultDocumentId resFromDocument = some "Installation-Manual" ∧
    strContainsSubstr (jsToLower "Installation-Manual") (jsToLower "installation") = true ∧
    filterResultsByDocument [resFromDocument] ["installation"] = [] :=
  ⟨by decide, by decide, by decide⟩

/-- C6 (amended): for a non-empty filter list, a result passes the document
filter iff its `metadata.documentId` field — not the resolved document id
chain — is present, non-empty, and contains (case-insensitively) one of the
filter substrings; when nothing passes the output is the empty list. -/
theorem document_filter_matches_documentId_field
    (results : List RetResult) (filts : List String) (r : RetResult)
    (hne : filts.isEmpty = false) :
    r ∈ filterResultsByDocument results filts ↔
      r ∈ results ∧ ∃ d, r.node.metadata.documentId = some d ∧ jsIsEmpty d = false ∧
        ∃ f ∈ filts, (jsToLower f).data <:+: (jsToLower d).data := by
  rw [filterResultsByDocument, if_neg (by simp [hne]), List.mem_filter,
    docFilterPasses_iff]

/-- Witness: the amended C6 applied to the spec's `"installation"` example,
where the document id is carried by `metadata.documentId` itself. -/
theorem document_filter_matches_documentId_field_witness :
    (["installation"].isEmpty = false) ∧
    (resWithDocumentId ∈ filterResultsByDocument [resWithDocumentId] ["installation"] ↔
      resWithDocumentId ∈ [resWithDocumentId] ∧
        ∃ d, resWithDocumentId.node.metadata.documentId = some d ∧
          jsIsEmpty d = false ∧
          ∃ f ∈ ["installation"], (jsToLower f).data <:+: (jsToLower d).data) :=
  ⟨by decide,
    document_filter_matches_documentId_field [resWithDocumentId] ["installation"]
      resWithDocumentId (by decide)⟩

/-- C8: an empty (or missing/non-string) query is rejected up front — the
API endpoint answers 400 "Query is required" with an empty network-call
trace, and the pdf-chat REPL dispatches empty input to a plain re-prompt,
which issues no network calls. -/
theorem empty_query_rejected_without_network_calls
    (oracle : StoreOracle) (connected : Bool) (graphName : Option String)
    (autoExplain : Bool) (lastQuestion : Option String) :
    apiQueryHandler oracle connected { query := some "", graphName := graphName } =
      (.badRequest "Query is required", []) ∧
    apiQueryHandler oracle connected { query := none, graphName := graphName } =
      (.badRequest "Query is required", []) ∧
    parseChatInput "" = .reprompt ∧
    cliTurnCalls oracle DEFAULT_QUERY_OPTIONS autoExplain lastQuestion .reprompt = [] :=
  ⟨rfl, rfl, rfl, rfl⟩

theorem requestCount_embedAttempts_le (responses : Nat → EmbedResponse)
    (fuel attempt : Nat) :
    requestCount (embedAttempts responses fuel attempt).2 ≤ fuel := by
  induction fuel generalizing attempt with
  | zero => simp [embedAttempts, requestCount]
  | succ fuel ih =>
    rw [embedAttempts]
    cases pdfChatAttemptOutcome (responses attempt) with
    | ok e => simp [requestCount]
    | error msg =>
      cases fuel with
      | zero => simp [requestCount]
      | succ fuel' =>
        simp only [requestCount, List.filter]
        have := ih (attempt + 1)
        rw [requestCount] at this
        simpa using Nat.succ_le_succ this

/-- C9 counterexample: at the part_003 call site the claim fails — an
out-of-range embedding (magnitude 200, which pdf-chat's validation rejects
as a failure) is returned as a SUCCESSFUL embedding, so it is never a
failure to retry or throw; and a genuine transport failure is thrown after
a single attempt, with no retry and no delay. -/
theorem viz_embedding_unvalidated_single_attempt_counterexample :
    vizGetTextEmbedding (.arr [.fin 200]) = (.ok [.fin 200], [.request 1]) ∧
    validateEmbedding [.fin 200] =
      .error "Embedding magnitude too large; likely decode/format mismatch" ∧
    vizGetTextEmbedding (.arr [.nonfin]) = (.ok [.nonfin], [.request 1]) ∧
    validateEmbedding [.nonfin] =
      .error "Embedding contains invalid values (null/NaN/Infinity)" ∧
    vizGetTextEmbedding (.failure "connect ETIMEDOUT") =
      (.error "connect ETIMEDOUT", [.request 1]) ∧
    requestCount (vizGetTextEmbedding (.failure "connect ETIMEDOUT")).2 = 1 :=
  ⟨by decide, by decide, by decide, by decide, by decide, by decide⟩

/-- C9 (amended): the pdf-chat embedding wrapper makes at most
`MAX_RETRIES = 3` attempts; when all three fail — whether by transport
error, non-finite values, or out-of-range magnitude, all of which its
validation surfaces as a failed attempt — it sleeps `2000·n` ms between
attempts `n` and `n+1` and finally throws the last error.  The
visualization server's wrapper, by contrast, makes exactly one attempt
with no retry and no delay, propagates a provider failure unchanged, and
performs no value validation: any decoded array, out-of-range or
non-finite values included, is returned as a successful embedding. -/
theorem embedding_retry_policy
    (responses : Nat → EmbedResponse) (m1 m2 m3 : String)
    (h1 : pdfChatAttemptOutcome (responses 1) = .error m1)
    (h2 : pdfChatAttemptOutcome (responses 2) = .error m2)
    (h3 : pdfChatAttemptOutcome (responses 3) = .error m3) :
    pdfChatGetTextEmbedding responses =
      (.error m3,
        [.request 1, .sleep 2000, .request 2, .sleep 4000, .request 3]) ∧
    (∀ rs : Nat → EmbedResponse,
      requestCount (pdfChatGetTextEmbedding rs).2 ≤ MAX_RETRIES) ∧
    (∀ resp : EmbedResponse, (vizGetTextEmbedding resp).2 = [.request 1]) ∧
    (∀ vals : List JsNum, vizGetTextEmbedding (.arr vals) = (.ok vals, [.request 1])) ∧
    (∀ msg : String, vizGetTextEmbedding (.failure msg) = (.error msg, [.request 1])) := by
  refine ⟨?_, ?_, ?_, fun vals => rfl, fun msg => rfl⟩
  · rw [pdfChatGetTextEmbedding]
    simp [MAX_RETRIES, embedAttempts, h1, h2, h3, RETRY_DELAY_MS]
  · intro rs
    exact requestCount_embedAttempts_le rs MAX_RETRIES 1
  · intro resp
    cases resp <;> rfl

/-- Witness: the retry policy applied to `flakyResponses`, whose three
failures are a transport error, a non-finite embedding value, and an
out-of-range magnitude. -/
theorem embedding_retry_policy_witness :
    pdfChatAttemptOutcome (flakyResponses 1) = .error "connect ETIMEDOUT" ∧
    pdfChatAttemptOutcome (flakyResponses 2) =
      .error "Embedding contains invalid values (null/NaN/Infinity)" ∧
    pdfChatAttemptOutcome (flakyResponses 3) =
      .error "Embedding magnitude too large; likely decode/format mismatch" ∧
    (pdfChatGetTextEmbedding flakyResponses =
        (.error "Embedding magnitude too large; likely decode/format mismatch",
          [.request 1, .sleep 2000, .request 2, .sleep 4000, .request 3]) ∧
      (∀ rs : Nat → EmbedResponse,
        requestCount (pdfChatGetTextEmbedding rs).2 ≤ MAX_RETRIES) ∧
      (∀ resp : EmbedResponse, (vizGetTextEmbedding resp).2 = [.request 1]) ∧
      (∀ vals : List JsNum,
        vizGetTextEmbedding (.arr vals) = (.ok vals, [.request 1])) ∧
      (∀ msg : String,
        vizGetTextEmbedding (.failure msg) = (.error msg, [.request 1]))) :=
  ⟨by decide, by decide, by decide,
    embedding_retry_policy flakyResponses "connect ETIMEDOUT"
      "Embedding contains invalid values (null/NaN/Infinity)"
      "Embedding magnitude too large; likely decode/format mismatch"
      (by decide) (by decide) (by decide)⟩

/-! ## C1: the replay's scores versus the spec-modelled production scores -/

theorem endpointScore_nil_scores (kgNodes : List KGNode) (x : String) :
    endpointScore kgNodes [] x = 0 := by
  rw [endpointScore]
  cases h : HKV.jsIndexOf (kgNodes.map (fun n => n.id)) x with
  | none => rfl
  | some i => simp [List.getD]

theorem endpointScore_cons (m : KGNode) (ms : List KGNode) (sc : ℚ) (ss : List ℚ)
    (x : String) :
    endpointScore (m :: ms) (sc :: ss) x =
      if m.id = x then sc else endpointScore ms ss x := by
  by_cases hmx : m.id = x
  · simp [endpointScore, HKV.jsIndexOf, hmx, List.getD]
  · rw [if_neg hmx, endpointScore, endpointScore]
    simp only [List.map_cons, HKV.jsIndexOf, hmx, if_false]
    cases h : HKV.jsIndexOf (ms.map (fun n => n.id)) x with
    | none => simp [h]
    | some i => simp [h, List.getD]

theorem specMatchScore_nil_scores (kgNodes : List KGNode) (n : KGNode) :
    specMatchScore kgNodes [] n = 0 := by
  simp [specMatchScore, List.zip_nil_right]

theorem specMatchScore_cons (m : KGNode) (ms : List KGNode) (sc : ℚ) (ss : List ℚ)
    (n : KGNode) :
    specMatchScore (m :: ms) (sc :: ss) n =
      if m.id = n.id then sc else specMatchScore ms ss n := by
  by_cases hmx : m.id = n.id
  · simp [specMatchScore, List.zip_cons_cons, List.find?_cons, hmx]
  · simp [specMatchScore, List.zip_cons_cons, List.find?_cons, hmx]

theorem endpointScore_eq_specMatchScore (kgNodes : List KGNode) (scores : List ℚ)
    (n : KGNode) :
    endpointScore kgNodes scores n.id = specMatchScore kgNodes scores n := by
  induction kgNodes generalizing scores with
  | nil => simp [endpointScore, HKV.jsIndexOf, specMatchScore]
  | cons m ms ih =>
    cases scores with
    | nil => rw [endpointScore_nil_scores, specMatchScore_nil_scores]
    | cons sc ss => rw [endpointScore_cons, specMatchScore_cons, ih]

theorem nodeProvenanceEntries_wf (n : KGNode) (h : WellFormedNode n) :
    nodeProvenanceEntries n =
      [jsToLower n.id] ++
      (n.name.map (fun s => [jsToLower s])).getD [] ++
      (n.properties.documentId.map (fun s => [jsToLower s])).getD [] ++
      (n.properties.sourceChunk.map (fun s => [jsToLower s])).getD [] := by
  rcases h with ⟨h1, h2, h3, h4⟩
  rw [nodeProvenanceEntries, h1]
  congr 1
  congr 1
  congr 1
  · cases hv : n.name with
    | none => rfl
    | some v =>
      have hv' : jsIsEmpty v = false :=
        (jsIsEmpty_eq_false_iff v).mpr (fun hveq => h2 (hv.trans (by rw [hveq])))
      simp [hv']
  · cases hv : n.properties.documentId with
    | none => rfl
    | some v =>
      have hv' : jsIsEmpty v = false :=
        (jsIsEmpty_eq_false_iff v).mpr (fun hveq => h3 (hv.trans (by rw [hveq])))
      simp [hv']
  · cases hv : n.properties.sourceChunk with
    | none => rfl
    | some v =>
      have hv' : jsIsEmpty v = false :=
        (jsIsEmpty_eq_false_iff v).mpr (fun hveq => h4 (hv.trans (by rw [hveq])))
      simp [hv']

theorem buildProvenanceSet_eq_spec (kgNodes : List KGNode)
    (h : ∀ n ∈ kgNodes, WellFormedNode n) :
    buildProvenanceSet kgNodes = specProvenanceSet kgNodes := by
  rw [buildProvenanceSet, specProvenanceSet]
  induction kgNodes with
  | nil => rfl
  | cons m ms ih =>
    rw [List.flatMap_cons, List.flatMap_cons,
      nodeProvenanceEntries_wf m (h m (List.mem_cons_self m ms)),
      ih (fun n hn => h n (List.mem_cons_of_mem m hn))]

theorem truthyMem_eq_any (prov : List String) (v : Option String)
    (hv : v ≠ some "") :
    truthyMem prov v =
      ((v.map (fun c => [c])).getD []).any (fun c => decide (jsToLower c ∈ prov)) := by
  cases v with
  | none => rfl
  | some c =>
    have hc : jsIsEmpty c = false :=
      (jsIsEmpty_eq_false_iff c).mpr (fun hceq => hv (by rw [hceq]))
    simp [truthyMem, hc]

theorem shouldBoost_eq_spec_any (prov : List String) (t : Triplet)
    (hs : WellFormedNode t.s) (ho : WellFormedNode t.o) :
    shouldBoost prov t.s t.o =
      (specCandidates t).any (fun c => decide (jsToLower c ∈ prov)) := by
  have hs1 : jsIsEmpty t.s.id = false := hs.1
  have ho1 : jsIsEmpty t.o.id = false := ho.1
  rw [shouldBoost, specCandidates,
    truthyMem_eq_any prov t.s.properties.documentId hs.2.2.1,
    truthyMem_eq_any prov t.s.properties.sourceChunk hs.2.2.2,
    truthyMem_eq_any prov t.o.properties.documentId ho.2.2.1,
    truthyMem_eq_any prov t.o.properties.sourceChunk ho.2.2.2,
    truthyMem_eq_any prov t.s.name hs.2.1,
    truthyMem_eq_any prov t.o.name ho.2.1,
    hs1, ho1]
  rw [Bool.eq_iff_iff]
  simp only [List.any_append, List.any_cons, List.any_nil, Bool.or_eq_true,
    Bool.not_false, Bool.true_and, Bool.and_eq_true, Bool.or_false]
  tauto

theorem specBoostedScores_fst (opts : QueryOptions) (kgNodes : List KGNode)
    (scores : List ℚ) (t : Triplet) :
    (specBoostedScores opts kgNodes scores t).1 =
      qMax (specMatchScore kgNodes scores t.s) (specMatchScore kgNodes scores t.o) := by
  rw [specBoostedScores]
  split <;> rfl

theorem specBoostedScores_snd (opts : QueryOptions) (kgNodes : List KGNode)
    (scores : List ℚ) (t : Triplet) :
    (specBoostedScores opts kgNodes scores t).2 =
      if opts.crossCheckBoost = true ∧
          0 < qMax (specMatchScore kgNodes scores t.s) (specMatchScore kgNodes scores t.o) ∧
          (specCandidates t).any
            (fun c => decide (jsToLower c ∈ specProvenanceSet kgNodes)) = true then
        boostScore
          (qMax (specMatchScore kgNodes scores t.s) (specMatchScore kgNodes scores t.o))
          opts.crossCheckBoostFactor
      else
        qMax (specMatchScore kgNodes scores t.s) (specMatchScore kgNodes scores t.o) := by
  rw [specBoostedScores]
  split <;> rfl

theorem scoreTriplet_score_eq_ite (opts : QueryOptions) (kgNodes : List KGNode)
    (scores : List ℚ) (prov : List String) (t : Triplet) :
    (scoreTriplet opts kgNodes scores prov t).score =
      if opts.crossCheckBoost = true ∧
          0 < qMax (endpointScore kgNodes scores t.s.id)
            (endpointScore kgNodes scores t.o.id) ∧
          shouldBoost prov t.s t.o = true then
        boostScore
          (qMax (endpointScore kgNodes scores t.s.id)
            (endpointScore kgNodes scores t.o.id))
          opts.crossCheckBoostFactor
      else
        qMax (endpointScore kgNodes scores t.s.id)
          (endpointScore kgNodes scores t.o.id) := by
  rw [scoreTriplet]
  by_cases h1 : opts.crossCheckBoost = true ∧
      0 < qMax (endpointScore kgNodes scores t.s.id) (endpointScore kgNodes scores t.o.id)
  · rw [if_pos h1]
    by_cases h2 : shouldBoost prov t.s t.o = true
    · rw [if_pos h2, if_pos ⟨h1.1, h1.2, h2⟩]
    · rw [if_neg h2, if_neg (fun hc => h2 hc.2.2)]
  · rw [if_neg h1, if_neg (fun hc => h1 ⟨hc.1, hc.2.1⟩)]

/-- C1: for every option set, vector-match list, score list and triplet
over well-formed nodes, the base and boosted scores computed by the
diagnostic replay (`explainRetrieval`) coincide with those of the
production boosting algorithm as the spec defines it (§4.4) — the replay's
scoring is extensionally the production scoring, so diagnostic output
cannot drift from ranking behavior. -/
theorem replay_scores_equal_production_scores
    (opts : QueryOptions) (kgNodes : List KGNode) (scores : List ℚ) (t : Triplet)
    (hw : ∀ n ∈ kgNodes, WellFormedNode n)
    (hs : WellFormedNode t.s) (ho : WellFormedNode t.o) :
    (scoreTriplet opts kgNodes scores (explainProvenanceSet opts kgNodes) t).baseScore =
      (specBoostedScores opts kgNodes scores t).1 ∧
    (scoreTriplet opts kgNodes scores (explainProvenanceSet opts kgNodes) t).score =
      (specBoostedScores opts kgNodes scores t).2 := by
  have hbase : qMax (endpointScore kgNodes scores t.s.id)
      (endpointScore kgNodes scores t.o.id) =
      qMax (specMatchScore kgNodes scores t.s) (specMatchScore kgNodes scores t.o) := by
    rw [endpointScore_eq_specMatchScore, endpointScore_eq_specMatchScore]
  constructor
  · rw [scoreTriplet_baseScore, specBoostedScores_fst, hbase]
  · rw [scoreTriplet_score_eq_ite, specBoostedScores_snd]
    cases hb : opts.crossCheckBoost with
    | false =>
      rw [if_neg (fun hc => by simp [hb] at hc), if_neg (fun hc => by simp [hb] at hc),
        hbase]
    | true =>
      have hprov : explainProvenanceSet opts kgNodes = specProvenanceSet kgNodes := by
        rw [explainProvenanceSet, hb, if_pos rfl, buildProvenanceSet_eq_spec kgNodes hw]
      rw [hprov, shouldBoost_eq_spec_any (specProvenanceSet kgNodes) t hs ho, hbase]

/-- Witness: C1 evaluated on the spec's example data. -/
theorem replay_scores_equal_production_scores_witness :
    (∀ n ∈ [nodeA, nodeB], WellFormedNode n) ∧
    WellFormedNode tripletAC.s ∧ WellFormedNode tripletAC.o ∧
    ((scoreTriplet DEFAULT_QUERY_OPTIONS [nodeA, nodeB] [mkRat 9 10, mkRat 7 10]
        (explainProvenanceSet DEFAULT_QUERY_OPTIONS [nodeA, nodeB]) tripletAC).baseScore =
      (specBoostedScores DEFAULT_QUERY_OPTIONS [nodeA, nodeB] [mkRat 9 10, mkRat 7 10]
        tripletAC).1 ∧
    (scoreTriplet DEFAULT_QUERY_OPTIONS [nodeA, nodeB] [mkRat 9 10, mkRat 7 10]
        (explainProvenanceSet DEFAULT_QUERY_OPTIONS [nodeA, nodeB]) tripletAC).score =
      (specBoostedScores DEFAULT_QUERY_OPTIONS [nodeA, nodeB] [mkRat 9 10, mkRat 7 10]
        tripletAC).2) :=
  ⟨by decide, by decide, by decide,
    replay_scores_equal_production_scores DEFAULT_QUERY_OPTIONS [nodeA, nodeB]
      [mkRat 9 10, mkRat 7 10] tripletAC (by decide) (by decide) (by decide)⟩

end HKV
